import Mathlib

/-!
Shallow embedding of `pkg/metricsprovider/prometheus.go` from the
load-watcher repository.

Modelling choices:
* Decoded Go `interface` values (the result of `encoding/json` decoding)
  are the inductive `GoVal`; Go map iteration is modelled by the order of
  the association list carried by `vobj` (Go's map order is unspecified,
  so every theorem below quantifies over the list order it is given).
* Go runtime panics (failed type assertions, index out of range, nil
  pointer dereference) are modelled by `Except GoPanic`.
* `float64` values are modelled by `ℚ`; `strconv.ParseFloat` is modelled
  by `parseFloatQ`, restricted to finite decimal literals (no hex, no
  Inf/NaN, no digit underscores), exact where the decimal is exactly
  representable.
* The HTTP transport is out of scope per the spec; it is abstracted as an
  environment `ReqEnv` mapping the request URL to `none` (network error,
  i.e. `client.Do` returned a nil response) or to the status code plus the
  structure obtained by decoding the body into
  `map[string]map[string]interface{}` (a failed decode leaves that map
  empty, which the code only logs).
-/

/-- Modelled from the spec: the watcher package (not among the sources)
declares the resource-kind enum of a metric record, CPU or Memory. -/
inductive ResourceType where
  | CPU
  | Memory
deriving DecidableEq, Repr

/-- Modelled from the spec: the watcher package's Metric record
{ name, type, rollup, value }.  The source field named `Type` is rendered
`MetricType` (`Type` is reserved in Lean); `Value` is the `float64` field,
modelled as `ℚ`. -/
structure Metric where
  Name : String
  MetricType : ResourceType
  Rollup : String
  Value : ℚ
deriving DecidableEq, Repr

/-- Modelled from the spec: the watcher package's Window carries the
rollup duration string used in the query. -/
structure Window where
  Duration : String
deriving DecidableEq, Repr

/-- A decoded Go `interface{}` value as produced by `encoding/json`. -/
inductive GoVal where
  | vnull
  | vbool (b : Bool)
  | vnum (q : ℚ)
  | vstr (s : String)
  | varr (elems : List GoVal)
  | vobj (fields : List (String × GoVal))

/-- Whether a decoded value is a JSON object (a Go `map[string]interface{}`). -/
def GoVal.isObj : GoVal → Bool
  | .vobj _ => true
  | _ => false

/-- Go runtime panic causes relevant to this file. -/
inductive GoPanic where
  | typeAssert
  | indexOOB
  | nilDeref
deriving DecidableEq, Repr

/-- `Except.isOk` as a plain Bool (ok = no panic occurred). -/
def isOkE {ε α : Type} : Except ε α → Bool
  | .ok _ => true
  | .error _ => false

/-- Go map lookup on the association-list model: first binding wins
(keys of a decoded JSON object are unique). -/
def lookupMap {α : Type} (kvs : List (String × α)) (k : String) : Option α :=
  (kvs.find? fun p => p.1 == k).map (fun p => p.2)

/-- Constant `promQuery` from the source. -/
def promQuery : String := "/api/v1/query?query="

/-- Constant `prom_std_method` from the source. -/
def prom_std_method : String := "stddev_over_time"

/-- Constant `prom_avg_method` from the source. -/
def prom_avg_method : String := "avg_over_time"

/-- Constant `prom_cpu_metric` from the source. -/
def prom_cpu_metric : String := "instance:node_cpu:ratio"

/-- Constant `prom_mem_metric` from the source. -/
def prom_mem_metric : String := "instance:node_memory_utilisation:ratio"

/-- The numeric value of a list of decimal digit characters. -/
def digitsVal (ds : List Char) : Nat :=
  ds.foldl (fun a c => a * 10 + (c.toNat - 48)) 0

/-- Parse the optional exponent suffix of a float literal; `some e` when the
remainder is empty or a well-formed exponent, `none` on trailing junk. -/
def parseExp : List Char → Option Int
  | [] => some 0
  | c :: rest =>
    if c = 'e' ∨ c = 'E' then
      match rest with
      | '+' :: ds =>
          if ds ≠ [] ∧ ds.all Char.isDigit then some ((digitsVal ds : Nat) : Int) else none
      | '-' :: ds =>
          if ds ≠ [] ∧ ds.all Char.isDigit then some (-((digitsVal ds : Nat) : Int)) else none
      | ds =>
          if ds ≠ [] ∧ ds.all Char.isDigit then some ((digitsVal ds : Nat) : Int) else none
    else none

/-- Parse the mantissa (digits, optional fraction) of a float literal:
the combined digit value (integer and fraction digits read as one number),
the number of fraction digits, and the unconsumed remainder. -/
def parseMantissa (cs : List Char) : Option (Nat × Nat × List Char) :=
  let intDs := cs.takeWhile Char.isDigit
  let rest := cs.dropWhile Char.isDigit
  match rest with
  | '.' :: rest2 =>
    let fracDs := rest2.takeWhile Char.isDigit
    let rest3 := rest2.dropWhile Char.isDigit
    if intDs.isEmpty ∧ fracDs.isEmpty then none
    else some (digitsVal (intDs ++ fracDs), fracDs.length, rest3)
  | _ => if intDs.isEmpty then none else some (digitsVal intDs, 0, rest)

/-- Model of `strconv.ParseFloat(s, 64)`, restricted to finite decimal
literals: optional sign, digits with optional fraction, optional decimal
exponent.  `none` models the error case (in which Go's ParseFloat returns
the float value 0 together with a syntax error).  With mantissa digits m,
f fraction digits and exponent e, the value is sign * m * 10^(e-f),
assembled with integer arithmetic and `mkRat`. -/
def parseFloatQ (s : String) : Option ℚ :=
  let cs := s.data
  let signAndRest : Int × List Char :=
    match cs with
    | '+' :: r => (1, r)
    | '-' :: r => (-1, r)
    | _ => (1, cs)
  match parseMantissa signAndRest.2 with
  | none => none
  | some mfr =>
    match parseExp mfr.2.2 with
    | none => none
    | some e =>
      let t : Int := e - (mfr.2.1 : Int)
      if 0 ≤ t then
        some (mkRat (signAndRest.1 * (mfr.1 : Int) * ((10 : Int) ^ t.toNat)) 1)
      else
        some (mkRat (signAndRest.1 * (mfr.1 : Int)) ((10 : Nat) ^ (-t).toNat))

/-- The string Go's `v.([]interface{})[1].(string)` extracts from a raw
value, collapsing the three panic sites (not-a-slice assertion, index 1 out
of range, element-not-a-string assertion) into `none`. -/
def extractValueStr : GoVal → Option String
  | .varr xs =>
    match xs.get? 1 with
    | some (.vstr s) => some s
    | _ => none
  | _ => none

/-- One iteration of the `for k, v := range promdata` loop of
`promdata2metric`: on key "metric", a comma-ok map assertion guards the
object, but `["instance"].(string)` is unchecked (missing or non-string
`instance` panics); on any other key the raw value array is read without
checks and its index-1 string parsed, the parse error being discarded. -/
def convStep (st : Metric × String) (kv : String × GoVal) :
    Except GoPanic (Metric × String) :=
  if kv.1 = "metric" then
    match kv.2 with
    | .vobj o =>
      match lookupMap o "instance" with
      | some (.vstr s) => .ok (st.1, s)
      | _ => .error .typeAssert
    | _ => .ok st
  else
    match extractValueStr kv.2 with
    | some s => .ok ({ st.1 with Value := (parseFloatQ s).getD 0 }, st.2)
    | none => .error .typeAssert

/-- `promdata2metric` from the source: convert one raw result object into a
(Metric, host) pair.  Name/Rollup come from the originating query, Type is
CPU iff the queried metric is the CPU metric name, then the key loop runs
(list order standing for Go's unspecified map iteration order). -/
def promdata2metric (promdata : List (String × GoVal))
    (metric method rollup : String) : Except GoPanic (Metric × String) :=
  let init : Metric :=
    { Name := method
      MetricType := if metric = prom_cpu_metric then .CPU else .Memory
      Rollup := rollup
      Value := 0 }
  promdata.foldlM convStep (init, "")

/-- The host-keyed metric mapping `map[string][]watcher.Metric`, as a total
function (absent hosts map to the empty list, matching Go's nil slice). -/
def HostMetrics : Type := String → List Metric

/-- The empty mapping `make(map[string][]watcher.Metric)`. -/
def emptyHM : HostMetrics := fun _ => []

/-- `hostMetrics[curHost] = append(hostMetrics[curHost], curMetric)`. -/
def appendHM (hm : HostMetrics) (host : String) (m : Metric) : HostMetrics :=
  fun h => if h = host then hm h ++ [m] else hm h

/-- `fmt.Sprintf("http://%s%s%s(%s[%s])", promHost, promQuery, method, metric, rollup)`. -/
def buildPromURL (ph method metric rollup : String) : String :=
  "http://" ++ ph ++ promQuery ++ method ++ "(" ++ metric ++ "[" ++ rollup ++ "])"

/-- A backend response as the code observes it: the HTTP status code and
the structure obtained by decoding the body into
`map[string]map[string]interface{}` (empty when decoding failed — the code
merely logs the decode error and continues with the partial value). -/
structure PromResponse where
  statusCode : Nat
  decoded : List (String × List (String × GoVal))

/-- The HTTP capability `s.client.Do`, abstracted per the spec as a map
from the request URL to its outcome; `none` models a transport error, in
which Go's `client.Do` returns a nil response. -/
def ReqEnv : Type := String → Option PromResponse

/-- `res["data"]["result"]`: indexing a missing outer key yields Go's nil
inner map, then the comma-ok lookup of "result". -/
def dataResult (decoded : List (String × List (String × GoVal))) : Option GoVal :=
  lookupMap ((lookupMap decoded "data").getD []) "result"

/-- The array-case loop of `updateAllHostMetrics`: each element is cast to
`map[string]interface{}` without a check (non-object elements panic),
converted, and appended under its own host. -/
def processEntries (xs : List GoVal) (metric method rollup : String)
    (hm : HostMetrics) : Except GoPanic HostMetrics :=
  xs.foldlM
    (fun acc v =>
      match v with
      | .vobj kvs => do
        let p ← promdata2metric kvs metric method rollup
        pure (appendHM acc p.2 p.1)
      | _ => .error .typeAssert)
    hm

/-- `updateAllHostMetrics` from the source: build the query URL, perform
the request (`resp, _ := s.client.Do(req)` — a nil response panics at
`resp.StatusCode`), bail out unchanged on a non-OK status, then switch on
the shape of `res["data"]["result"]`. -/
def updateAllHostMetrics (env : ReqEnv) (ph : String) (hostMetrics : HostMetrics)
    (metric method rollup : String) : Except GoPanic HostMetrics :=
  let promURLStr := buildPromURL ph method metric rollup
  match env promURLStr with
  | none => .error .nilDeref
  | some resp =>
    if resp.statusCode ≠ 200 then .ok hostMetrics
    else
      match dataResult resp.decoded with
      | some (.varr xs) => processEntries xs metric method rollup hostMetrics
      | some (.vobj kvs) => do
        let p ← promdata2metric kvs metric method rollup
        pure (appendHM hostMetrics p.2 p.1)
      | some _ => .ok hostMetrics
      | none => .ok hostMetrics

/-- The fixed method × metric iteration order of `FetchAllHostsMetrics`:
outer loop over methods {avg, stddev}, inner loop over metrics {cpu, mem}. -/
def allCombos : List (String × String) :=
  [(prom_avg_method, prom_cpu_metric), (prom_avg_method, prom_mem_metric),
   (prom_std_method, prom_cpu_metric), (prom_std_method, prom_mem_metric)]

/-- The nested loop body of `FetchAllHostsMetrics`, folding
`updateAllHostMetrics` over a list of (method, metric) combinations. -/
def runCombos (env : ReqEnv) (ph : String) (combos : List (String × String))
    (rollup : String) (hm : HostMetrics) : Except GoPanic HostMetrics :=
  combos.foldlM (fun acc c => updateAllHostMetrics env ph acc c.2 c.1 rollup) hm

/-- `FetchAllHostsMetrics` from the source: start from an empty mapping,
fold the 4 combinations, and `return hostMetrics, nil` (the error result is
the constant nil, modelled as `Option String`). -/
def FetchAllHostsMetrics (env : ReqEnv) (ph : String) (window : Window) :
    Except GoPanic (HostMetrics × Option String) := do
  let hm ← runCombos env ph allCombos window.Duration emptyHM
  pure (hm, none)

/-- Whether one loop step of `promdata2metric` avoids a panic: the "metric"
key needs either a non-object value (skipped) or an object with a
string-typed `instance`; any other key needs a value array with a string at
index 1. -/
def stepOkB (kv : String × GoVal) : Bool :=
  if kv.1 = "metric" then
    match kv.2 with
    | .vobj o =>
      match lookupMap o "instance" with
      | some (.vstr _) => true
      | _ => false
    | _ => true
  else (extractValueStr kv.2).isSome

/-- Whether a whole raw result object converts without a panic. -/
def entryOkB (kvs : List (String × GoVal)) : Bool := kvs.all stepOkB

/-- Whether one element of the result array converts without a panic (it
must in particular be an object). -/
def goValEntryOkB : GoVal → Bool
  | .vobj kvs => entryOkB kvs
  | _ => false

/-- Whether a received response is handled without a panic by
`updateAllHostMetrics`: a non-OK status, a missing `data.result`, or an
unrecognized shape are all benign (logged and skipped); array or object
payloads are benign when every entry converts without a panic. -/
def benignB (r : PromResponse) : Bool :=
  if r.statusCode ≠ 200 then true
  else
    match dataResult r.decoded with
    | some (.varr xs) => xs.all goValEntryOkB
    | some (.vobj kvs) => entryOkB kvs
    | some _ => true
    | none => true

/-- Whether every one of the 4 per-combination requests of a fetch obtains
a response that `updateAllHostMetrics` handles without a panic. -/
def envBenignB (env : ReqEnv) (ph rollup : String) : Bool :=
  allCombos.all (fun c =>
    match env (buildPromURL ph c.1 c.2 rollup) with
    | some r => benignB r
    | none => false)

/-- Convert every element of a result array, `none` as soon as one would
panic (non-object element, or a panicking per-entry conversion). -/
def convertAll (xs : List GoVal) (metric method rollup : String) :
    Option (List (Metric × String)) :=
  match xs with
  | [] => some []
  | v :: rest =>
    match v with
    | .vobj kvs =>
      match promdata2metric kvs metric method rollup with
      | .ok p => (convertAll rest metric method rollup).map (fun ps => p :: ps)
      | .error _ => none
    | _ => none

/-- Fold a list of converted (Metric, host) pairs into a mapping, each
appended under its own host. -/
def extendAll (hm : HostMetrics) (ps : List (Metric × String)) : HostMetrics :=
  ps.foldl (fun a p => appendHM a p.2 p.1) hm

/-- Modelled from the spec's words, for comparison with `buildPromURL`
(claim C7): the URL-encoding of the query expression, i.e. Go's
`url.QueryEscape` on ASCII input — unreserved bytes (alphanumerics and
`-_.~`) kept, space as `+`, every other byte percent-encoded with
uppercase hex. -/
def hexDigit (n : Nat) : Char :=
  if n < 10 then Char.ofNat (48 + n) else Char.ofNat (55 + n)

/-- Whether a character is kept verbatim by query escaping. -/
def isUnreservedQE (c : Char) : Bool :=
  c.isAlphanum || c = '-' || c = '_' || c = '.' || c = '~'

/-- Modelled from the spec's words (claim C7): URL query escaping. -/
def queryEscape (s : String) : String :=
  String.mk (s.data.foldr
    (fun c acc =>
      if isUnreservedQE c then c :: acc
      else if c = ' ' then '+' :: acc
      else '%' :: hexDigit (c.toNat / 16) :: hexDigit (c.toNat % 16) :: acc)
    [])

/-- Modelled from the spec's words (claim C7): the query URL the spec
describes, `http://<host>/api/v1/query?query=` followed by the URL-encoded
query expression `<method>(<metric>[<rollup>])`. -/
def specPromURL (ph method metric rollup : String) : String :=
  "http://" ++ ph ++ "/api/v1/query?query=" ++
    queryEscape (method ++ "(" ++ metric ++ "[" ++ rollup ++ "])")

/-! ### Helper lemmas -/

theorem isOkE_eq_true_iff {e a : Type} (x : Except e a) :
    isOkE x = true ↔ ∃ v, x = .ok v := by
  cases x <;> simp [isOkE]

theorem convStep_isOk (st : Metric × String) (kv : String × GoVal) :
    isOkE (convStep st kv) = stepOkB kv := by
  rcases kv with ⟨k, v⟩
  by_cases hk : k = "metric"
  · simp only [convStep, stepOkB, hk, if_pos]
    rcases v with _ | b | q | s | xs | o
    · simp [isOkE]
    · simp [isOkE]
    · simp [isOkE]
    · simp [isOkE]
    · simp [isOkE]
    · rcases ho : lookupMap o "instance" with _ | w
      · simp [isOkE, ho]
      · cases w <;> simp [isOkE, ho]
  · simp only [convStep, stepOkB, hk, if_neg, ite_false]
    rcases hs : extractValueStr v with _ | s <;> simp [isOkE]

theorem foldlM_convStep_isOk (kvs : List (String × GoVal)) (st : Metric × String) :
    isOkE (kvs.foldlM convStep st) = kvs.all stepOkB := by
  induction kvs generalizing st with
  | nil => rfl
  | cons kv rest ih =>
    have hcons : (kv :: rest).foldlM convStep st =
        convStep st kv >>= fun st2 => rest.foldlM convStep st2 := rfl
    rw [hcons, List.all_cons]
    rcases hc : convStep st kv with e | st2
    · have : isOkE (convStep st kv) = false := by rw [hc]; rfl
      rw [convStep_isOk] at this
      simp [Bind.bind, Except.bind, this, isOkE]
    · have : isOkE (convStep st kv) = true := by rw [hc]; rfl
      rw [convStep_isOk] at this
      simp [Bind.bind, Except.bind, this, ih]

theorem promdata2metric_isOk (kvs : List (String × GoVal)) (metric method rollup : String) :
    isOkE (promdata2metric kvs metric method rollup) = entryOkB kvs := by
  unfold promdata2metric entryOkB
  exact foldlM_convStep_isOk kvs _

theorem processEntries_isOk (xs : List GoVal) (metric method rollup : String) (hm : HostMetrics) :
    isOkE (processEntries xs metric method rollup hm) = xs.all goValEntryOkB := by
  induction xs generalizing hm with
  | nil => rfl
  | cons v rest ih =>
    have hcons : processEntries (v :: rest) metric method rollup hm =
        (match v with
          | .vobj kvs => do
            let p ← promdata2metric kvs metric method rollup
            pure (appendHM hm p.2 p.1)
          | _ => .error .typeAssert) >>= fun hm2 =>
          processEntries rest metric method rollup hm2 := by
      cases v <;> rfl
    rw [hcons, List.all_cons]
    cases v
    case vobj kvs =>
      rcases hp : promdata2metric kvs metric method rollup with e | p
      · have : entryOkB kvs = false := by
          rw [← promdata2metric_isOk kvs metric method rollup, hp]; rfl
        simp [goValEntryOkB, this, Bind.bind, Except.bind, hp, isOkE]
      · have : entryOkB kvs = true := by
          rw [← promdata2metric_isOk kvs metric method rollup, hp]; rfl
        simp [goValEntryOkB, this, Bind.bind, Except.bind, hp, ih, pure, Except.pure]
    all_goals simp [goValEntryOkB, Bind.bind, Except.bind, isOkE]

theorem exceptBind_congr {e a b : Type} (x : Except e a) {f g : a → Except e b}
    (h : ∀ v, f v = g v) : x >>= f = x >>= g := by
  cases x
  · rfl
  · simp only [Bind.bind, Except.bind]; exact h _

theorem runCombos_cons (env : ReqEnv) (ph : String) (c : String × String)
    (cs : List (String × String)) (rollup : String) (hm : HostMetrics) :
    runCombos env ph (c :: cs) rollup hm =
      updateAllHostMetrics env ph hm c.2 c.1 rollup >>= fun hm2 =>
        runCombos env ph cs rollup hm2 := rfl

theorem update_nonOK (env : ReqEnv) (ph : String) (hm : HostMetrics)
    (metric method rollup : String) (r : PromResponse)
    (henv : env (buildPromURL ph method metric rollup) = some r)
    (hst : r.statusCode ≠ 200) :
    updateAllHostMetrics env ph hm metric method rollup = .ok hm := by
  unfold updateAllHostMetrics
  simp only [henv]
  rw [if_pos hst]

theorem update_isOk_of_benign (env : ReqEnv) (ph : String) (hm : HostMetrics)
    (metric method rollup : String) (r : PromResponse)
    (henv : env (buildPromURL ph method metric rollup) = some r)
    (hb : benignB r = true) :
    isOkE (updateAllHostMetrics env ph hm metric method rollup) = true := by
  unfold updateAllHostMetrics
  simp only [henv]
  unfold benignB at hb
  by_cases hst : r.statusCode ≠ 200
  · rw [if_pos hst]; rfl
  · rw [if_neg hst]
    rw [if_neg hst] at hb
    rcases hd : dataResult r.decoded with _ | pd
    · rfl
    · rw [hd] at hb
      rcases pd with _ | b | q | s | xs | kvs
      · rfl
      · rfl
      · rfl
      · rfl
      · rw [processEntries_isOk]; exact hb
      · have hok : isOkE (promdata2metric kvs metric method rollup) = true := by
          rw [promdata2metric_isOk]; exact hb
        obtain ⟨p, hp⟩ := (isOkE_eq_true_iff _).mp hok
        simp [hp, Bind.bind, Except.bind, pure, Except.pure, isOkE]

theorem runCombos_ok : ∀ (combos : List (String × String)) (env : ReqEnv) (ph : String)
    (rollup : String) (hm : HostMetrics),
    (∀ c ∈ combos, ∃ r, env (buildPromURL ph c.1 c.2 rollup) = some r ∧ benignB r = true) →
    ∃ hm2, runCombos env ph combos rollup hm = .ok hm2 := by
  intro combos
  induction combos with
  | nil => intro env ph rollup hm _; exact ⟨hm, rfl⟩
  | cons c cs ih =>
    intro env ph rollup hm h
    obtain ⟨r, hr, hb⟩ := h c (List.mem_cons_self c cs)
    have hu := update_isOk_of_benign env ph hm c.2 c.1 rollup r hr hb
    obtain ⟨hm1, hok⟩ := (isOkE_eq_true_iff _).mp hu
    obtain ⟨hm2, h2⟩ := ih env ph rollup hm1 (fun c2 hc2 => h c2 (List.mem_cons_of_mem c hc2))
    refine ⟨hm2, ?_⟩
    rw [runCombos_cons, hok]
    exact h2

theorem FetchAll_eq_map (env : ReqEnv) (ph : String) (w : Window) :
    FetchAllHostsMetrics env ph w =
      (runCombos env ph allCombos w.Duration emptyHM).map
        (fun hm => (hm, (none : Option String))) := by
  unfold FetchAllHostsMetrics
  rcases h : runCombos env ph allCombos w.Duration emptyHM with e | hm <;>
    simp [h, Except.map, Bind.bind, Except.bind, pure, Except.pure]

theorem convertAll_length (xs : List GoVal) (metric method rollup : String) :
    ∀ ps, convertAll xs metric method rollup = some ps → ps.length = xs.length := by
  induction xs with
  | nil => intro ps h; simp [convertAll] at h; subst h; rfl
  | cons v rest ih =>
    intro ps h
    rcases v with _ | b | q | s | ys | kvs
    iterate 5 simp [convertAll] at h
    have hred : convertAll (GoVal.vobj kvs :: rest) metric method rollup =
        (match promdata2metric kvs metric method rollup with
          | .ok p => (convertAll rest metric method rollup).map (fun ps => p :: ps)
          | .error _ => none) := rfl
    rw [hred] at h
    rcases hp : promdata2metric kvs metric method rollup with e | p <;> rw [hp] at h
    · exact absurd h (by simp)
    · rcases hc : convertAll rest metric method rollup with _ | ps2 <;> rw [hc] at h
      · exact absurd h (by simp)
      · have h2 : p :: ps2 = ps := by simpa using h
        subst h2
        simp [ih ps2 hc]

theorem extendAll_apply (ps : List (Metric × String)) :
    ∀ (hm : HostMetrics) (h : String),
    extendAll hm ps h = hm h ++ (ps.filter (fun p => p.2 == h)).map Prod.fst := by
  induction ps with
  | nil => intro hm h; simp [extendAll]
  | cons p rest ih =>
    intro hm h
    have hcons : extendAll hm (p :: rest) = extendAll (appendHM hm p.2 p.1) rest := rfl
    rw [hcons, ih]
    by_cases hph : p.2 = h
    · subst hph
      simp [appendHM, List.filter_cons]
    · rw [List.filter_cons, if_neg (by simp [hph])]
      unfold appendHM
      rw [if_neg (fun hh => hph hh.symm)]

theorem processEntries_extendAll (xs : List GoVal) (metric method rollup : String) :
    ∀ (ps : List (Metric × String)) (hm : HostMetrics),
    convertAll xs metric method rollup = some ps →
    processEntries xs metric method rollup hm = .ok (extendAll hm ps) := by
  induction xs with
  | nil => intro ps hm h; simp [convertAll] at h; subst h; rfl
  | cons v rest ih =>
    intro ps hm h
    rcases v with _ | b | q | s | ys | kvs
    iterate 5 simp [convertAll] at h
    have hred : convertAll (GoVal.vobj kvs :: rest) metric method rollup =
        (match promdata2metric kvs metric method rollup with
          | .ok p => (convertAll rest metric method rollup).map (fun ps => p :: ps)
          | .error _ => none) := rfl
    rw [hred] at h
    rcases hp : promdata2metric kvs metric method rollup with e | p <;> rw [hp] at h
    · exact absurd h (by simp)
    · rcases hc : convertAll rest metric method rollup with _ | ps2 <;> rw [hc] at h
      · exact absurd h (by simp)
      · have h2 : p :: ps2 = ps := by simpa using h
        subst h2
        have hcons : processEntries (GoVal.vobj kvs :: rest) metric method rollup hm =
            (promdata2metric kvs metric method rollup >>= fun p =>
              pure (appendHM hm p.2 p.1)) >>= fun hm2 =>
              processEntries rest metric method rollup hm2 := rfl
        rw [hcons, hp]
        have hbind : ((Except.ok p : Except GoPanic (Metric × String)) >>= fun p =>
            (pure (appendHM hm p.2 p.1) : Except GoPanic HostMetrics)) =
            .ok (appendHM hm p.2 p.1) := rfl
        rw [hbind]
        have : ((Except.ok (appendHM hm p.2 p.1) : Except GoPanic HostMetrics) >>=
            fun hm2 => processEntries rest metric method rollup hm2) =
            processEntries rest metric method rollup (appendHM hm p.2 p.1) := rfl
        rw [this, ih ps2 (appendHM hm p.2 p.1) hc]
        rfl

theorem parseFloatQ_42_5 : parseFloatQ "42.5" = some (85 / 2 : ℚ) := by
  rw [show parseFloatQ "42.5" = some (mkRat 85 2) from by decide]
  norm_num [Rat.mkRat_eq_divInt, Rat.divInt_eq_div]

theorem foldlM_convStep_single (st : Metric × String) (kv : String × GoVal) :
    List.foldlM convStep st [kv] = convStep st kv := by
  show convStep st kv >>= (fun s1 => pure s1) = _
  cases h : convStep st kv <;> simp [h, Bind.bind, Except.bind, pure, Except.pure]

theorem foldlM_convStep_pair (st : Metric × String) (kv1 kv2 : String × GoVal) :
    List.foldlM convStep st [kv1, kv2] =
      convStep st kv1 >>= fun s1 => convStep s1 kv2 := by
  show (convStep st kv1 >>= fun s1 => convStep s1 kv2 >>= fun s2 => pure s2) = _
  refine exceptBind_congr _ (fun s1 => ?_)
  cases h : convStep s1 kv2 <;> simp [h, Bind.bind, Except.bind, pure, Except.pure]

theorem convStep_value (st : Metric × String) (k : String) (t : GoVal) (s : String)
    (hk : ¬(k = "metric")) :
    convStep st (k, GoVal.varr [t, GoVal.vstr s]) =
      .ok ({ st.1 with Value := (parseFloatQ s).getD 0 }, st.2) := by
  unfold convStep
  rw [if_neg hk]
  rfl

theorem runCombos_skip (env : ReqEnv) (ph rollup : String) (c : String × String)
    (cs : List (String × String)) (r : PromResponse)
    (henv : env (buildPromURL ph c.1 c.2 rollup) = some r) (hst : r.statusCode ≠ 200) :
    ∀ hm, runCombos env ph (c :: cs) rollup hm = runCombos env ph cs rollup hm := by
  intro hm
  rw [runCombos_cons, update_nonOK env ph hm c.2 c.1 rollup r henv hst]
  rfl

theorem runCombos_congr_tail (env : ReqEnv) (ph rollup : String) (c : String × String)
    (cs ds : List (String × String))
    (h : ∀ hm, runCombos env ph cs rollup hm = runCombos env ph ds rollup hm) :
    ∀ hm, runCombos env ph (c :: cs) rollup hm = runCombos env ph (c :: ds) rollup hm := by
  intro hm
  rw [runCombos_cons, runCombos_cons]
  exact exceptBind_congr _ h

theorem convStep_bad (st : Metric × String) (k : String) (v : GoVal)
    (hk : ¬(k = "metric")) (hv : extractValueStr v = none) :
    convStep st (k, v) = .error .typeAssert := by
  have hred : convStep st (k, v) =
      (match extractValueStr v with
        | some s2 => Except.ok ({ st.1 with Value := (parseFloatQ s2).getD 0 }, st.2)
        | none => Except.error GoPanic.typeAssert) := by
    unfold convStep
    rw [if_neg hk]
  rw [hred, hv]

/-! ### Claim theorems -/

/-- C1 counterexample: a raw result entry whose `metric` sub-object is
present (an object) but lacks an `instance` field makes `promdata2metric`
panic (failed type assertion on `["instance"].(string)`), contradicting
the claim that such an entry yields the empty-string host key without a
crash. -/
theorem prom_C1_cex :
    promdata2metric
        [("metric", GoVal.vobj []), ("value", GoVal.varr [GoVal.vnull, GoVal.vstr "42.5"])]
        prom_cpu_metric prom_avg_method "5m" = .error GoPanic.typeAssert := rfl

/-- C1 (amended): if the `metric` key's value is not an object, per-entry
conversion tolerates it and returns the empty-string host key without
panicking; but if the `metric` value is an object whose `instance` field
is missing or not a string, conversion panics with a type-assertion
failure instead of returning the empty string. -/
theorem prom_C1 :
    (∀ (v t : GoVal) (s metric method rollup : String),
        v.isObj = false →
        (promdata2metric [("metric", v), ("value", GoVal.varr [t, GoVal.vstr s])]
            metric method rollup).map (fun p => p.2) = .ok "")
    ∧
    (∀ (o : List (String × GoVal)) (t : GoVal) (s metric method rollup : String),
        stepOkB ("metric", GoVal.vobj o) = false →
        promdata2metric [("metric", GoVal.vobj o), ("value", GoVal.varr [t, GoVal.vstr s])]
            metric method rollup = .error GoPanic.typeAssert) := by
  constructor
  · intro v t s metric method rollup hobj
    simp only [promdata2metric]
    rw [foldlM_convStep_pair]
    have h1 : ∀ st : Metric × String, convStep st ("metric", v) = .ok st := by
      intro st
      rcases v with _ | b | q | sv | ys | o
      iterate 5 rfl
      simp [GoVal.isObj] at hobj
    rw [h1]
    rfl
  · intro o t s metric method rollup hbad
    simp only [promdata2metric]
    rw [foldlM_convStep_pair]
    have h1 : ∀ st : Metric × String,
        convStep st ("metric", GoVal.vobj o) = .error .typeAssert := by
      intro st
      unfold convStep
      rw [if_pos rfl]
      rcases hlo : lookupMap o "instance" with _ | w
      · simp [hlo]
      · rcases w with _ | b | q | sv | ys | o2
        iterate 3 simp [hlo]
        · simp [stepOkB, hlo] at hbad
        iterate 2 simp [hlo]
    rw [h1]
    rfl

/-- C1 witness: a null `metric` value degrades to host key empty string;
a `metric` object with a numeric `instance` panics. -/
theorem prom_C1_witness :
    (GoVal.vnull.isObj = false ∧
      (promdata2metric [("metric", GoVal.vnull), ("value", GoVal.varr [GoVal.vnull, GoVal.vstr "1"])]
          prom_cpu_metric prom_avg_method "5m").map (fun p => p.2) = .ok "") ∧
    (stepOkB ("metric", GoVal.vobj [("instance", GoVal.vnum 3)]) = false ∧
      promdata2metric
          [("metric", GoVal.vobj [("instance", GoVal.vnum 3)]),
            ("value", GoVal.varr [GoVal.vnull, GoVal.vstr "1"])]
          prom_cpu_metric prom_avg_method "5m" = .error GoPanic.typeAssert) :=
  ⟨⟨rfl, prom_C1.1 GoVal.vnull GoVal.vnull "1" prom_cpu_metric prom_avg_method "5m" rfl⟩,
    ⟨rfl, prom_C1.2 [("instance", GoVal.vnum 3)] GoVal.vnull "1"
      prom_cpu_metric prom_avg_method "5m" rfl⟩⟩

/-- C2 counterexample: a transport failure (the HTTP client returns no
response) on the very first combination makes the whole fetch panic with a
nil dereference at `resp.StatusCode`, contradicting the claim that every
failure, including a network failure issuing the request, degrades to a
missing metric with a best-effort mapping still returned. -/
theorem prom_C2_cex :
    FetchAllHostsMetrics (fun _ => none) "prometheus-k8s:9090" ⟨"5m"⟩ =
      .error GoPanic.nilDeref := rfl

/-- C2 (amended): every per-combination failure that still yields an HTTP
response — non-OK status, undecodable body, missing `data.result`,
unrecognized result shape — degrades locally and the fetch returns a
best-effort mapping with a nil error; but a transport failure yielding no
response panics instead of degrading. -/
theorem prom_C2 (env : ReqEnv) (ph : String) (w : Window)
    (h : envBenignB env ph w.Duration = true) :
    ∃ hm, FetchAllHostsMetrics env ph w = .ok (hm, none) := by
  have h2 : ∀ c ∈ allCombos, ∃ r,
      env (buildPromURL ph c.1 c.2 w.Duration) = some r ∧ benignB r = true := by
    intro c hc
    have hall := List.all_eq_true.mp h c hc
    rcases he : env (buildPromURL ph c.1 c.2 w.Duration) with _ | r <;> rw [he] at hall
    · exact absurd hall (by simp)
    · exact ⟨r, rfl, hall⟩
  obtain ⟨hm2, hrun⟩ := runCombos_ok allCombos env ph w.Duration emptyHM h2
  refine ⟨hm2, ?_⟩
  rw [FetchAll_eq_map, hrun]
  rfl

/-- C2 witness: an environment answering every query with status 500
satisfies the benignity hypothesis and the fetch returns ok with nil
error. -/
theorem prom_C2_witness :
    envBenignB (fun _ => some ⟨500, []⟩) "prometheus-k8s:9090" "5m" = true ∧
    ∃ hm, FetchAllHostsMetrics (fun _ => some ⟨500, []⟩) "prometheus-k8s:9090" ⟨"5m"⟩ =
      .ok (hm, none) :=
  ⟨rfl, prom_C2 (fun _ => some ⟨500, []⟩) "prometheus-k8s:9090" ⟨"5m"⟩ rfl⟩

/-- C3: a per-combination update receiving a non-OK HTTP status returns
the HostMetrics mapping unchanged, and a non-OK status for one of the 4
(method, metric) combinations leaves the overall fetch equal to the fold
of the remaining 3 combinations — they still contribute their metrics. -/
theorem prom_C3 :
    (∀ (env : ReqEnv) (ph : String) (hm : HostMetrics) (metric method rollup : String)
        (r : PromResponse),
        env (buildPromURL ph method metric rollup) = some r →
        r.statusCode ≠ 200 →
        updateAllHostMetrics env ph hm metric method rollup = .ok hm)
    ∧
    (∀ (env : ReqEnv) (ph : String) (w : Window) (c : String × String) (r : PromResponse),
        c ∈ allCombos →
        env (buildPromURL ph c.1 c.2 w.Duration) = some r →
        r.statusCode ≠ 200 →
        FetchAllHostsMetrics env ph w =
          (runCombos env ph (allCombos.erase c) w.Duration emptyHM).map
            (fun hm => (hm, (none : Option String)))) := by
  constructor
  · exact fun env ph hm metric method rollup r henv hst =>
      update_nonOK env ph hm metric method rollup r henv hst
  · intro env ph w c r hc henv hst
    rw [FetchAll_eq_map]
    simp only [allCombos, List.mem_cons, List.not_mem_nil, or_false] at hc
    rcases hc with rfl | rfl | rfl | rfl
    · have herase : allCombos.erase (prom_avg_method, prom_cpu_metric) =
          [(prom_avg_method, prom_mem_metric), (prom_std_method, prom_cpu_metric),
            (prom_std_method, prom_mem_metric)] := by decide
      rw [herase]
      rw [show allCombos = (prom_avg_method, prom_cpu_metric) ::
          [(prom_avg_method, prom_mem_metric), (prom_std_method, prom_cpu_metric),
            (prom_std_method, prom_mem_metric)] from rfl]
      rw [runCombos_skip env ph w.Duration (prom_avg_method, prom_cpu_metric)
          [(prom_avg_method, prom_mem_metric), (prom_std_method, prom_cpu_metric),
            (prom_std_method, prom_mem_metric)] r henv hst emptyHM]
    · have herase : allCombos.erase (prom_avg_method, prom_mem_metric) =
          [(prom_avg_method, prom_cpu_metric), (prom_std_method, prom_cpu_metric),
            (prom_std_method, prom_mem_metric)] := by decide
      rw [herase]
      rw [show allCombos = (prom_avg_method, prom_cpu_metric) ::
          [(prom_avg_method, prom_mem_metric), (prom_std_method, prom_cpu_metric),
            (prom_std_method, prom_mem_metric)] from rfl]
      rw [runCombos_congr_tail env ph w.Duration (prom_avg_method, prom_cpu_metric)
          [(prom_avg_method, prom_mem_metric), (prom_std_method, prom_cpu_metric),
            (prom_std_method, prom_mem_metric)]
          [(prom_std_method, prom_cpu_metric), (prom_std_method, prom_mem_metric)]
          (runCombos_skip env ph w.Duration (prom_avg_method, prom_mem_metric)
            [(prom_std_method, prom_cpu_metric), (prom_std_method, prom_mem_metric)]
            r henv hst)
          emptyHM]
    · have herase : allCombos.erase (prom_std_method, prom_cpu_metric) =
          [(prom_avg_method, prom_cpu_metric), (prom_avg_method, prom_mem_metric),
            (prom_std_method, prom_mem_metric)] := by decide
      rw [herase]
      rw [show allCombos = (prom_avg_method, prom_cpu_metric) ::
          [(prom_avg_method, prom_mem_metric), (prom_std_method, prom_cpu_metric),
            (prom_std_method, prom_mem_metric)] from rfl]
      rw [runCombos_congr_tail env ph w.Duration (prom_avg_method, prom_cpu_metric)
          [(prom_avg_method, prom_mem_metric), (prom_std_method, prom_cpu_metric),
            (prom_std_method, prom_mem_metric)]
          [(prom_avg_method, prom_mem_metric), (prom_std_method, prom_mem_metric)]
          (runCombos_congr_tail env ph w.Duration (prom_avg_method, prom_mem_metric)
            [(prom_std_method, prom_cpu_metric), (prom_std_method, prom_mem_metric)]
            [(prom_std_method, prom_mem_metric)]
            (runCombos_skip env ph w.Duration (prom_std_method, prom_cpu_metric)
              [(prom_std_method, prom_mem_metric)] r henv hst))
          emptyHM]
    · have herase : allCombos.erase (prom_std_method, prom_mem_metric) =
          [(prom_avg_method, prom_cpu_metric), (prom_avg_method, prom_mem_metric),
            (prom_std_method, prom_cpu_metric)] := by decide
      rw [herase]
      rw [show allCombos = (prom_avg_method, prom_cpu_metric) ::
          [(prom_avg_method, prom_mem_metric), (prom_std_method, prom_cpu_metric),
            (prom_std_method, prom_mem_metric)] from rfl]
      rw [runCombos_congr_tail env ph w.Duration (prom_avg_method, prom_cpu_metric)
          [(prom_avg_method, prom_mem_metric), (prom_std_method, prom_cpu_metric),
            (prom_std_method, prom_mem_metric)]
          [(prom_avg_method, prom_mem_metric), (prom_std_method, prom_cpu_metric)]
          (runCombos_congr_tail env ph w.Duration (prom_avg_method, prom_mem_metric)
            [(prom_std_method, prom_cpu_metric), (prom_std_method, prom_mem_metric)]
            [(prom_std_method, prom_cpu_metric)]
            (runCombos_congr_tail env ph w.Duration (prom_std_method, prom_cpu_metric)
              [(prom_std_method, prom_mem_metric)] []
              (runCombos_skip env ph w.Duration (prom_std_method, prom_mem_metric)
                [] r henv hst)))
          emptyHM]

/-- C3 witness: with an all-500 environment, the first combination returns
the mapping unchanged and the fetch equals the fold of the other three. -/
theorem prom_C3_witness :
    ((fun _ => some ⟨500, []⟩ : ReqEnv) (buildPromURL "h" prom_avg_method prom_cpu_metric "5m") =
        some ⟨500, []⟩ ∧
      (500 : Nat) ≠ 200 ∧
      updateAllHostMetrics (fun _ => some ⟨500, []⟩) "h" emptyHM
        prom_cpu_metric prom_avg_method "5m" = .ok emptyHM) ∧
    ((prom_avg_method, prom_cpu_metric) ∈ allCombos ∧
      FetchAllHostsMetrics (fun _ => some ⟨500, []⟩) "h" ⟨"5m"⟩ =
        (runCombos (fun _ => some ⟨500, []⟩) "h"
            (allCombos.erase (prom_avg_method, prom_cpu_metric)) "5m" emptyHM).map
          (fun hm => (hm, (none : Option String)))) :=
  ⟨⟨rfl, by decide,
      prom_C3.1 (fun _ => some ⟨500, []⟩) "h" emptyHM prom_cpu_metric prom_avg_method "5m"
        ⟨500, []⟩ rfl (by decide)⟩,
    ⟨List.mem_cons_self _ _,
      prom_C3.2 (fun _ => some ⟨500, []⟩) "h" ⟨"5m"⟩ (prom_avg_method, prom_cpu_metric)
        ⟨500, []⟩ (List.mem_cons_self _ _) rfl (by decide)⟩⟩

/-- C4: for an OK response whose `data.result` is an array of N
convertible result objects, exactly N metric entries are produced, each
appended under the host its own entry names; for an OK response whose
`data.result` is a single result object, exactly one entry is produced,
appended under the instance named in the response, leaving other hosts
untouched. -/
theorem prom_C4 :
    (∀ (env : ReqEnv) (ph : String) (hm : HostMetrics) (metric method rollup : String)
        (r : PromResponse) (xs : List GoVal) (ps : List (Metric × String)),
        env (buildPromURL ph method metric rollup) = some r →
        r.statusCode = 200 →
        dataResult r.decoded = some (GoVal.varr xs) →
        convertAll xs metric method rollup = some ps →
        ps.length = xs.length ∧
        updateAllHostMetrics env ph hm metric method rollup = .ok (extendAll hm ps) ∧
        ∀ h, extendAll hm ps h = hm h ++ (ps.filter (fun p => p.2 == h)).map Prod.fst)
    ∧
    (∀ (env : ReqEnv) (ph : String) (hm : HostMetrics) (metric method rollup : String)
        (r : PromResponse) (kvs : List (String × GoVal)) (mt : Metric) (host : String),
        env (buildPromURL ph method metric rollup) = some r →
        r.statusCode = 200 →
        dataResult r.decoded = some (GoVal.vobj kvs) →
        promdata2metric kvs metric method rollup = .ok (mt, host) →
        updateAllHostMetrics env ph hm metric method rollup = .ok (appendHM hm host mt) ∧
        appendHM hm host mt host = hm host ++ [mt] ∧
        ∀ h2, h2 ≠ host → appendHM hm host mt h2 = hm h2) := by
  constructor
  · intro env ph hm metric method rollup r xs ps henv hst hdata hconv
    refine ⟨convertAll_length xs metric method rollup ps hconv, ?_,
      fun h => extendAll_apply ps hm h⟩
    unfold updateAllHostMetrics
    simp only [henv]
    rw [if_neg (by simp [hst])]
    rw [hdata]
    exact processEntries_extendAll xs metric method rollup ps hm hconv
  · intro env ph hm metric method rollup r kvs mt host henv hst hdata hpd
    refine ⟨?_, ?_, ?_⟩
    · unfold updateAllHostMetrics
      simp only [henv]
      rw [if_neg (by simp [hst])]
      rw [hdata]
      show (promdata2metric kvs metric method rollup >>= fun p =>
          pure (appendHM hm p.2 p.1)) = .ok (appendHM hm host mt)
      rw [hpd]
      rfl
    · unfold appendHM
      rw [if_pos rfl]
    · intro h2 hne
      unfold appendHM
      rw [if_neg hne]

/-- C4 witness: a one-element array response appends one metric under
"node-1"; a single-object response appends one metric under "node-2". -/
theorem prom_C4_witness :
    (convertAll [GoVal.vobj [("metric", GoVal.vobj [("instance", GoVal.vstr "node-1")]),
          ("value", GoVal.varr [GoVal.vnum 0, GoVal.vstr "2"])]]
        prom_cpu_metric prom_avg_method "5m" =
      some [((⟨prom_avg_method, ResourceType.CPU, "5m", mkRat 2 1⟩ : Metric), "node-1")] ∧
      updateAllHostMetrics (fun _ => some ⟨200, [("data", [("result", GoVal.varr [GoVal.vobj [("metric", GoVal.vobj [("instance", GoVal.vstr "node-1")]),
          ("value", GoVal.varr [GoVal.vnum 0, GoVal.vstr "2"])]])])]⟩) "h" emptyHM
          prom_cpu_metric prom_avg_method "5m" =
        .ok (extendAll emptyHM [((⟨prom_avg_method, ResourceType.CPU, "5m", mkRat 2 1⟩ : Metric), "node-1")])) ∧
    (promdata2metric [("metric", GoVal.vobj [("instance", GoVal.vstr "node-2")]),
          ("value", GoVal.varr [GoVal.vnum 0, GoVal.vstr "2"])]
        prom_cpu_metric prom_avg_method "5m" =
      .ok ((⟨prom_avg_method, ResourceType.CPU, "5m", mkRat 2 1⟩ : Metric), "node-2") ∧
      updateAllHostMetrics (fun _ => some ⟨200, [("data", [("result", GoVal.vobj [("metric", GoVal.vobj [("instance", GoVal.vstr "node-2")]),
          ("value", GoVal.varr [GoVal.vnum 0, GoVal.vstr "2"])])])]⟩) "h" emptyHM
          prom_cpu_metric prom_avg_method "5m" =
        .ok (appendHM emptyHM "node-2" (⟨prom_avg_method, ResourceType.CPU, "5m", mkRat 2 1⟩ : Metric))) :=
  ⟨⟨rfl,
      (prom_C4.1 (fun _ => some ⟨200, [("data", [("result", GoVal.varr [GoVal.vobj [("metric", GoVal.vobj [("instance", GoVal.vstr "node-1")]),
          ("value", GoVal.varr [GoVal.vnum 0, GoVal.vstr "2"])]])])]⟩) "h" emptyHM
        prom_cpu_metric prom_avg_method "5m" ⟨200, [("data", [("result", GoVal.varr [GoVal.vobj [("metric", GoVal.vobj [("instance", GoVal.vstr "node-1")]),
          ("value", GoVal.varr [GoVal.vnum 0, GoVal.vstr "2"])]])])]⟩
        [GoVal.vobj [("metric", GoVal.vobj [("instance", GoVal.vstr "node-1")]),
          ("value", GoVal.varr [GoVal.vnum 0, GoVal.vstr "2"])]]
        [((⟨prom_avg_method, ResourceType.CPU, "5m", mkRat 2 1⟩ : Metric), "node-1")] rfl rfl rfl rfl).2.1⟩,
    ⟨rfl,
      (prom_C4.2 (fun _ => some ⟨200, [("data", [("result", GoVal.vobj [("metric", GoVal.vobj [("instance", GoVal.vstr "node-2")]),
          ("value", GoVal.varr [GoVal.vnum 0, GoVal.vstr "2"])])])]⟩) "h" emptyHM
        prom_cpu_metric prom_avg_method "5m" ⟨200, [("data", [("result", GoVal.vobj [("metric", GoVal.vobj [("instance", GoVal.vstr "node-2")]),
          ("value", GoVal.varr [GoVal.vnum 0, GoVal.vstr "2"])])])]⟩
        [("metric", GoVal.vobj [("instance", GoVal.vstr "node-2")]),
          ("value", GoVal.varr [GoVal.vnum 0, GoVal.vstr "2"])]
        (⟨prom_avg_method, ResourceType.CPU, "5m", mkRat 2 1⟩ : Metric) "node-2" rfl rfl rfl rfl).1⟩⟩

/-- C5: a raw result entry whose value array is [anything, "42.5"]
converts to Metric.Value = 42.5 = 85/2 exactly (42.5 is exactly
representable in binary64, so the rational model agrees with Go's
float64 parse). -/
theorem prom_C5 (t : GoVal) (metric method rollup : String) :
    (promdata2metric [("value", GoVal.varr [t, GoVal.vstr "42.5"])] metric method rollup).map
      (fun p => p.1.Value) = .ok (85 / 2 : ℚ) := by
  simp only [promdata2metric]
  rw [foldlM_convStep_single, convStep_value _ "value" t "42.5" (by decide)]
  rw [parseFloatQ_42_5]
  rfl

/-- C6: whenever FetchAllHostsMetrics returns (does not panic), its error
result is nil, regardless of the environment the 4 queries see. -/
theorem prom_C6 (env : ReqEnv) (ph : String) (w : Window) (hm : HostMetrics)
    (e : Option String)
    (h : FetchAllHostsMetrics env ph w = .ok (hm, e)) : e = none := by
  rw [FetchAll_eq_map] at h
  rcases hr : runCombos env ph allCombos w.Duration emptyHM with er | hm2 <;> rw [hr] at h
  · simp [Except.map] at h
  · simp [Except.map] at h
    exact h.2.symm

/-- C6 witness: with an all-500 environment the fetch returns ok and the
error slot is nil. -/
theorem prom_C6_witness :
    FetchAllHostsMetrics (fun _ => some ⟨500, []⟩) "h" ⟨"5m"⟩ = .ok (emptyHM, none) ∧
    (none : Option String) = none :=
  ⟨rfl, prom_C6 (fun _ => some ⟨500, []⟩) "h" ⟨"5m"⟩ emptyHM none rfl⟩

/-- C7 counterexample: at the default host and the avg/cpu/5m query, the
URL the code builds differs from the spec's form with a URL-encoded query
expression — the code never URL-encodes. -/
theorem prom_C7_cex :
    buildPromURL "prometheus-k8s:9090" prom_avg_method prom_cpu_metric "5m" ≠
      specPromURL "prometheus-k8s:9090" prom_avg_method prom_cpu_metric "5m" := by decide

/-- C7 (amended): the query builder produces
`http://<host>/api/v1/query?query=` followed by the query expression
`<method>(<metric>[<rollup>])` embedded verbatim — plain string
formatting with no URL-encoding and no failure modes. -/
theorem prom_C7 (ph method metric rollup : String) :
    buildPromURL ph method metric rollup =
      ("http://" ++ ph ++ "/api/v1/query?query=") ++
        (method ++ "(" ++ metric ++ "[" ++ rollup ++ "])") := by
  unfold buildPromURL promQuery
  simp [String.append_assoc]

/-- C8: when the string at index 1 of the value array fails to parse as a
float, the entry still converts (no abort), with Metric.Value = 0 and the
parse error discarded. -/
theorem prom_C8 (t : GoVal) (s metric method rollup : String)
    (h : parseFloatQ s = none) :
    (promdata2metric [("value", GoVal.varr [t, GoVal.vstr s])] metric method rollup).map
      (fun p => p.1.Value) = .ok (0 : ℚ) := by
  simp only [promdata2metric]
  rw [foldlM_convStep_single, convStep_value _ "value" t s (by decide), h]
  rfl

/-- C8 witness: "not-a-number" fails to parse and yields Value = 0 without
aborting the conversion. -/
theorem prom_C8_witness :
    parseFloatQ "not-a-number" = none ∧
    (promdata2metric [("value", GoVal.varr [GoVal.vnull, GoVal.vstr "not-a-number"])]
        prom_cpu_metric prom_avg_method "5m").map (fun p => p.1.Value) = .ok (0 : ℚ) :=
  ⟨rfl, prom_C8 GoVal.vnull "not-a-number" prom_cpu_metric prom_avg_method "5m" rfl⟩

/-- C9: per-entry conversion takes Metric.Value from any key other than
"metric" (not only a key named "value"); and for any non-"metric" key
whose value is not an array with a string at index 1, conversion panics
instead of defaulting. -/
theorem prom_C9 :
    (∀ (k : String) (t : GoVal) (s metric method rollup : String),
        k ≠ "metric" →
        (promdata2metric [(k, GoVal.varr [t, GoVal.vstr s])] metric method rollup).map
          (fun p => p.1.Value) = .ok ((parseFloatQ s).getD 0))
    ∧
    (∀ (k : String) (v : GoVal) (metric method rollup : String),
        k ≠ "metric" →
        extractValueStr v = none →
        promdata2metric [(k, v)] metric method rollup = .error GoPanic.typeAssert) := by
  constructor
  · intro k t s metric method rollup hk
    simp only [promdata2metric]
    rw [foldlM_convStep_single, convStep_value _ k t s hk]
    rfl
  · intro k v metric method rollup hk hv
    simp only [promdata2metric]
    rw [foldlM_convStep_single, convStep_bad _ k v hk hv]

/-- C9 witness: the key "foo" contributes the value; the key "bar" with a
plain-string value panics. -/
theorem prom_C9_witness :
    (("foo" : String) ≠ "metric" ∧
      (promdata2metric [("foo", GoVal.varr [GoVal.vnull, GoVal.vstr "1"])]
          prom_cpu_metric prom_avg_method "5m").map (fun p => p.1.Value) =
        .ok ((parseFloatQ "1").getD 0)) ∧
    (("bar" : String) ≠ "metric" ∧ extractValueStr (GoVal.vstr "zzz") = none ∧
      promdata2metric [("bar", GoVal.vstr "zzz")] prom_cpu_metric prom_avg_method "5m" =
        .error GoPanic.typeAssert) :=
  ⟨⟨by decide, prom_C9.1 "foo" GoVal.vnull "1" prom_cpu_metric prom_avg_method "5m" (by decide)⟩,
    ⟨by decide, rfl, prom_C9.2 "bar" (GoVal.vstr "zzz") prom_cpu_metric prom_avg_method "5m"
      (by decide) rfl⟩⟩

/-- C10: in the array case, a non-object element of `data.result` makes
the update panic during iteration (it is not logged-and-ignored). -/
theorem prom_C10 (env : ReqEnv) (ph : String) (hm : HostMetrics)
    (metric method rollup : String) (r : PromResponse) (xs : List GoVal) (v : GoVal)
    (henv : env (buildPromURL ph method metric rollup) = some r)
    (hst : r.statusCode = 200)
    (hdata : dataResult r.decoded = some (GoVal.varr xs))
    (hv : v ∈ xs) (hobj : v.isObj = false) :
    isOkE (updateAllHostMetrics env ph hm metric method rollup) = false := by
  unfold updateAllHostMetrics
  simp only [henv]
  rw [if_neg (by simp [hst])]
  rw [hdata]
  show isOkE (processEntries xs metric method rollup hm) = false
  rw [processEntries_isOk]
  have hfalse : goValEntryOkB v = false := by
    rcases v with _ | b | q | sv | ys | o
    iterate 5 rfl
    simp [GoVal.isObj] at hobj
  cases hall : xs.all goValEntryOkB
  · rfl
  · exact absurd (List.all_eq_true.mp hall v hv) (by simp [hfalse])

/-- C10 witness: a result array containing the bare string "boom" panics
the update. -/
theorem prom_C10_witness :
    ((fun _ => some ⟨200, [("data", [("result", GoVal.varr [GoVal.vstr "boom"])])]⟩ : ReqEnv)
        (buildPromURL "h" prom_avg_method prom_cpu_metric "5m") =
      some ⟨200, [("data", [("result", GoVal.varr [GoVal.vstr "boom"])])]⟩ ∧
      dataResult [("data", [("result", GoVal.varr [GoVal.vstr "boom"])])] =
        some (GoVal.varr [GoVal.vstr "boom"]) ∧
      GoVal.vstr "boom" ∈ [GoVal.vstr "boom"] ∧
      (GoVal.vstr "boom").isObj = false) ∧
    isOkE (updateAllHostMetrics
        (fun _ => some ⟨200, [("data", [("result", GoVal.varr [GoVal.vstr "boom"])])]⟩)
        "h" emptyHM prom_cpu_metric prom_avg_method "5m") = false :=
  ⟨⟨rfl, rfl, List.mem_singleton.mpr rfl, rfl⟩,
    prom_C10 (fun _ => some ⟨200, [("data", [("result", GoVal.varr [GoVal.vstr "boom"])])]⟩)
      "h" emptyHM prom_cpu_metric prom_avg_method "5m"
      ⟨200, [("data", [("result", GoVal.varr [GoVal.vstr "boom"])])]⟩
      [GoVal.vstr "boom"] (GoVal.vstr "boom") rfl rfl rfl
      (List.mem_singleton.mpr rfl) rfl⟩

